import Mathlib

/-!
Shallow embedding of the `work_report` crate (`src/lib.rs`) and proofs about
its specification.

The filesystem is modelled as an association list from path strings to file
contents plus a list of created directories.  Rust functions that can panic
(`unwrap` / `expect`) are modelled in the `Except String` monad, the error
value carrying the panic message; `Except.error` models process abortion.

The two regular expressions of the source
(`\d{8}.txt$` used by `archive_all` and
`(?P<Y>\d{4})(?P<m>\d{2})(?P<d>\d{2}).txt` used by
`generate_partial_path_for_archive_dir`) are translated character by
character: `\d` is modelled by `Char.isDigit` (the ASCII fragment of the
regex class), `.` matches any character except `'\n'`, and `$` is the end of
the haystack.  The `md5::compute` digest is implemented in full (RFC 1321)
so that change detection is modelled faithfully.
-/

namespace WorkReport

/-! ### MD5 (model of the `md5` crate's `compute`) -/

/-- Left-rotate a 32-bit word (represented as a `Nat` below `2^32`). -/
def rotl32 (x n : Nat) : Nat :=
  ((x <<< n) ||| (x >>> (32 - n))) % 4294967296

/-- The 64 MD5 sine-derived constants (RFC 1321 table T). -/
def md5K : List Nat :=
  [0xd76aa478, 0xe8c7b756, 0x242070db, 0xc1bdceee,
   0xf57c0faf, 0x4787c62a, 0xa8304613, 0xfd469501,
   0x698098d8, 0x8b44f7af, 0xffff5bb1, 0x895cd7be,
   0x6b901122, 0xfd987193, 0xa679438e, 0x49b40821,
   0xf61e2562, 0xc040b340, 0x265e5a51, 0xe9b6c7aa,
   0xd62f105d, 0x02441453, 0xd8a1e681, 0xe7d3fbc8,
   0x21e1cde6, 0xc33707d6, 0xf4d50d87, 0x455a14ed,
   0xa9e3e905, 0xfcefa3f8, 0x676f02d9, 0x8d2a4c8a,
   0xfffa3942, 0x8771f681, 0x6d9d6122, 0xfde5380c,
   0xa4beea44, 0x4bdecfa9, 0xf6bb4b60, 0xbebfbc70,
   0x289b7ec6, 0xeaa127fa, 0xd4ef3085, 0x04881d05,
   0xd9d4d039, 0xe6db99e5, 0x1fa27cf8, 0xc4ac5665,
   0xf4292244, 0x432aff97, 0xab9423a7, 0xfc93a039,
   0x655b59c3, 0x8f0ccc92, 0xffeff47d, 0x85845dd1,
   0x6fa87e4f, 0xfe2ce6e0, 0xa3014314, 0x4e0811a1,
   0xf7537e82, 0xbd3af235, 0x2ad7d2bb, 0xeb86d391]

/-- The 64 MD5 per-round left-rotation amounts. -/
def md5S : List Nat :=
  [7, 12, 17, 22, 7, 12, 17, 22, 7, 12, 17, 22, 7, 12, 17, 22,
   5, 9, 14, 20, 5, 9, 14, 20, 5, 9, 14, 20, 5, 9, 14, 20,
   4, 11, 16, 23, 4, 11, 16, 23, 4, 11, 16, 23, 4, 11, 16, 23,
   6, 10, 15, 21, 6, 10, 15, 21, 6, 10, 15, 21, 6, 10, 15, 21]

/-- The MD5 round function for round `i` applied to words `b`, `c`, `d`. -/
def md5F (i b c d : Nat) : Nat :=
  if i < 16 then (b &&& c) ||| ((b ^^^ 0xffffffff) &&& d)
  else if i < 32 then (d &&& b) ||| ((d ^^^ 0xffffffff) &&& c)
  else if i < 48 then b ^^^ c ^^^ d
  else c ^^^ (b ||| (d ^^^ 0xffffffff))

/-- The MD5 message-word index used in round `i`. -/
def md5G (i : Nat) : Nat :=
  if i < 16 then i % 16
  else if i < 32 then (5 * i + 1) % 16
  else if i < 48 then (3 * i + 5) % 16
  else (7 * i) % 16

/-- One MD5 round: state `(a, b, c, d)` updated with block `M` at round `i`. -/
def md5Round (M : List Nat) (st : Nat × Nat × Nat × Nat) (i : Nat) :
    Nat × Nat × Nat × Nat :=
  let a := st.1
  let b := st.2.1
  let c := st.2.2.1
  let d := st.2.2.2
  let tmp := (a + md5F i b c d + md5K.getD i 0 + M.getD (md5G i) 0) % 4294967296
  (d, (b + rotl32 tmp (md5S.getD i 0)) % 4294967296, b, c)

/-- Process one 512-bit block (16 little-endian 32-bit words). -/
def md5Block (st : Nat × Nat × Nat × Nat) (M : List Nat) :
    Nat × Nat × Nat × Nat :=
  let r := (List.range 64).foldl (md5Round M) st
  ((st.1 + r.1) % 4294967296, (st.2.1 + r.2.1) % 4294967296,
   (st.2.2.1 + r.2.2.1) % 4294967296, (st.2.2.2 + r.2.2.2) % 4294967296)

/-- Fold `md5Block` over the word stream, 16 words at a time. -/
def md5Process (st : Nat × Nat × Nat × Nat) : List Nat → Nat × Nat × Nat × Nat
  | w0 :: w1 :: w2 :: w3 :: w4 :: w5 :: w6 :: w7 ::
    w8 :: w9 :: w10 :: w11 :: w12 :: w13 :: w14 :: w15 :: rest =>
      md5Process (md5Block st
        [w0, w1, w2, w3, w4, w5, w6, w7, w8, w9, w10, w11, w12, w13, w14, w15])
        rest
  | _ => st

/-- The 8 little-endian bytes of a 64-bit length field. -/
def le64 (n : Nat) : List Nat :=
  (List.range 8).map fun i => (n >>> (8 * i)) % 256

/-- MD5 padding: append `0x80`, zero bytes up to 56 mod 64, then the
bit length as a 64-bit little-endian quantity. -/
def padMd5 (msg : List Nat) : List Nat :=
  let k := (119 - msg.length % 64) % 64 + 1
  msg ++ 0x80 :: List.replicate (k - 1) 0 ++ le64 ((msg.length * 8) % 2 ^ 64)

/-- Group a byte list into little-endian 32-bit words. -/
def toWords : List Nat → List Nat
  | b0 :: b1 :: b2 :: b3 :: rest =>
      (b0 + b1 * 256 + b2 * 65536 + b3 * 16777216) :: toWords rest
  | _ => []

/-- The MD5 digest of a byte list, packed into a single `Nat` below `2^128`
(word `a` in the low 32 bits through word `d` in the high 32 bits). -/
def md5Bytes (msg : List Nat) : Nat :=
  let st := md5Process (0x67452301, 0xefcdab89, 0x98badcfe, 0x10325476)
    (toWords (padMd5 msg))
  st.1 % 4294967296 + st.2.1 % 4294967296 * 2 ^ 32 +
    st.2.2.1 % 4294967296 * 2 ^ 64 + st.2.2.2 % 4294967296 * 2 ^ 96

/-- UTF-8 encoding of a single character, as a list of byte values. -/
def utf8Bytes (c : Char) : List Nat :=
  let n := c.toNat
  if n < 0x80 then [n]
  else if n < 0x800 then
    [0xc0 ||| (n >>> 6), 0x80 ||| (n &&& 0x3f)]
  else if n < 0x10000 then
    [0xe0 ||| (n >>> 12), 0x80 ||| ((n >>> 6) &&& 0x3f), 0x80 ||| (n &&& 0x3f)]
  else
    [0xf0 ||| (n >>> 18), 0x80 ||| ((n >>> 12) &&& 0x3f),
     0x80 ||| ((n >>> 6) &&& 0x3f), 0x80 ||| (n &&& 0x3f)]

/-- The UTF-8 byte stream of a string. -/
def strBytes (s : String) : List Nat :=
  (s.data.map utf8Bytes).flatten

/-- The MD5 digest of a string's UTF-8 bytes (models `md5::compute` applied
to the result of `fs::read_to_string`). -/
def md5Str (s : String) : Nat :=
  md5Bytes (strBytes s)

/-! ### The two regular expressions of `src/lib.rs`

`\d` is modelled by `Char.isDigit`, `.` by any character other than `'\n'`
(the Rust `regex` crate default), `$` by the end of the haystack. -/

/-- Try to match `(?P<Y>\d{4})(?P<m>\d{2})(?P<d>\d{2}).txt` at the head of
`l`; on success return the captures `(Y, m)` used by the source. -/
def matchYmdAt (l : List Char) : Option (String × String) :=
  if ((l.take 8).length == 8 && (l.take 8).all Char.isDigit) then
    match l.drop 8 with
    | c :: t1 :: t2 :: t3 :: _ =>
      if (c != '\n' && t1 == 't' && t2 == 'x' && t3 == 't') then
        some (⟨(l.take 8).take 4⟩, ⟨((l.take 8).drop 4).take 2⟩)
      else none
    | _ => none
  else none

/-- Leftmost match of the year/month/day regex (models `Regex::captures`,
which returns the leftmost match or `None`). -/
def findYmd : List Char → Option (String × String)
  | [] => none
  | c :: rest =>
    match matchYmdAt (c :: rest) with
    | some r => some r
    | none => findYmd rest

/-- Does `\d{8}.txt` match ending exactly at the end of this tail?  Used to
model the `$`-anchored pattern of `archive_all`. -/
def matchTailPat (t : List Char) : Bool :=
  (t.length == 12) && (t.take 8).all Char.isDigit &&
    (match t.drop 8 with
     | [c, t1, t2, t3] => c != '\n' && t1 == 't' && t2 == 'x' && t3 == 't'
     | _ => false)

/-- Models `Regex::new(r"\d{8}.txt$").is_match(path)`: some suffix of the
haystack consists of 8 digits, one non-newline character, and `txt`. -/
def matchesArchivePattern (s : String) : Bool :=
  s.data.tails.any matchTailPat

/-! ### Path and directory-listing primitives -/

/-- Split a character list at `'/'` separators. -/
def splitSlash : List Char → List (List Char)
  | [] => [[]]
  | c :: rest =>
    if c = '/' then [] :: splitSlash rest
    else
      match splitSlash rest with
      | [] => [[c]]
      | g :: gs => (c :: g) :: gs

/-- Models `Path::new(p).file_name().and_then(|n| n.to_str())`: the last
normal component of the path (empty and `.` components are dropped; a final
`..` has no file name). -/
def fileNameOf (p : String) : Option String :=
  let comps := (splitSlash p.data).filter fun c => !(c.isEmpty) && !(c == ['.'])
  match comps.getLast? with
  | none => none
  | some c => if c == ['.', '.'] then none else some ⟨c⟩

/-- Is `p` of the form `dir ++ "/" ++ name` where `name` is a direct child
(no `/`) matching the glob `*.txt`?  Models which entries
`glob("{dir}/*.txt")` yields. -/
def isDirectTxtChild (dir p : String) : Bool :=
  (dir.data ++ ['/']).isPrefixOf p.data &&
    (let name := p.data.drop (dir.data.length + 1)
     !(name.contains '/') && ['.', 't', 'x', 't'].isSuffixOf name)

/-! ### Filesystem state -/

/-- A filesystem state: an association list from file paths to text contents
(the first binding for a path is its content) and the set of directories
created so far. -/
structure FileSystem where
  files : List (String × String)
  dirs : List String
deriving DecidableEq

/-- Models `fs::read_to_string`: the content of the first binding for `p`. -/
def FileSystem.read (fs : FileSystem) (p : String) : Option String :=
  (fs.files.find? fun e => e.1 == p).map (·.2)

/-- Models a file write: bind `p` to `c`, dropping any previous binding. -/
def FileSystem.write (fs : FileSystem) (p c : String) : FileSystem :=
  ⟨(p, c) :: fs.files.filter fun e => !(e.1 == p), fs.dirs⟩

/-- Models `Path::new(p).exists()` for files. -/
def FileSystem.existsFile (fs : FileSystem) (p : String) : Bool :=
  (fs.read p).isSome

/-- Models `fs::create_dir_all` (recursive creation always succeeds). -/
def FileSystem.createDirAll (fs : FileSystem) (d : String) : FileSystem :=
  ⟨fs.files, d :: fs.dirs⟩

/-! ### The embedded program -/

/-- The `WorkReportGenerator` struct: it owns the managed directory. -/
structure WorkReportGenerator where
  exec_dir : String
deriving DecidableEq

/-- Models `generate_partial_path_for_archive_dir`: leftmost match of the
year/month/day regex; `captures(..).unwrap()` panics when there is none. -/
def generate_partial_path_for_archive_dir (file_name : String) :
    Except String String :=
  match findYmd file_name.data with
  | none => Except.error "called Option::unwrap on a None value"
  | some (y, m) => Except.ok ("Archive/" ++ y ++ "/" ++ m)

/-- Models the free function `updated`: read both files as text and compare
the MD5 digests for inequality; panics when either read fails. -/
def updated (fs : FileSystem) (path1 path2 : String) : Except String Bool :=
  match fs.read path1 with
  | none => Except.error "cannot read the file."
  | some content1 =>
    match fs.read path2 with
    | none => Except.error "cannot read the file."
    | some content2 => Except.ok (decide (md5Str content1 ≠ md5Str content2))

/-- Models `fs::copy(src, dst)` (panic message of the caller's `expect`). -/
def copyFile (fs : FileSystem) (src dst : String) (msg : String) :
    Except String FileSystem :=
  match fs.read src with
  | none => Except.error msg
  | some c => Except.ok (fs.write dst c)

/-- Models `WorkReportGenerator::archive`. -/
def archive (g : WorkReportGenerator) (fs : FileSystem) (src_path : String) :
    Except String FileSystem :=
  match fileNameOf src_path with
  | none => Except.error "called Option::unwrap on a None value"
  | some root =>
    match generate_partial_path_for_archive_dir root with
    | Except.error e => Except.error e
    | Except.ok partial_path =>
      let dst_dir := g.exec_dir ++ "/" ++ partial_path
      let fs1 := fs.createDirAll dst_dir
      let dst_path := dst_dir ++ "/" ++ root
      if fs1.existsFile dst_path then
        match updated fs1 src_path dst_path with
        | Except.error e => Except.error e
        | Except.ok true => copyFile fs1 src_path dst_path "cannot copy the file."
        | Except.ok false => Except.ok fs1
      else
        copyFile fs1 src_path dst_path "cannot copy the file."

/-- The text written to `Template.txt`: the fixed boilerplate plus the final
newline appended by `writeln!`. -/
def templateFileContent : String :=
  "<Today's task>\n-\n-\n\n<TODO>\n-\n-\n\n"

/-- Models `WorkReportGenerator::create_template`. -/
def create_template (g : WorkReportGenerator) (fs : FileSystem) : FileSystem :=
  fs.write (g.exec_dir ++ "/Template.txt") templateFileContent

/-- Models `WorkReportGenerator::create_new`. -/
def create_new (g : WorkReportGenerator) (fs : FileSystem) (date : String) :
    Except String FileSystem :=
  let dst_filename := g.exec_dir ++ "/" ++ date ++ ".txt"
  let src_filename := g.exec_dir ++ "/Template.txt"
  if fs.existsFile dst_filename then
    Except.ok fs
  else
    let fs1 := if fs.existsFile src_filename then fs else create_template g fs
    copyFile fs1 src_filename dst_filename "cannot copy the file."

/-- A directory-listing entry as yielded by the `glob` iterator:
`Except.error ()` models a `GlobError` (e.g. permission failure during
iteration), `Except.ok po` models an `Ok(PathBuf)` whose `to_str()` is `po`
(`none` when the path is not valid UTF-8). -/
abbrev GlobEntry : Type := Except Unit (Option String)

/-- Models the `for entry in glob(...)` loop body of `archive_all` over a
given list of listing entries. -/
def archive_all_entries (g : WorkReportGenerator) (fs : FileSystem) :
    List GlobEntry → Except String FileSystem
  | [] => Except.ok fs
  | Except.error _ :: rest => archive_all_entries g fs rest
  | Except.ok none :: _ =>
    Except.error "called Option::unwrap on a None value"
  | Except.ok (some path) :: rest =>
    if matchesArchivePattern path then
      match archive g fs path with
      | Except.error e => Except.error e
      | Except.ok fs1 => archive_all_entries g fs1 rest
    else archive_all_entries g fs rest

/-- Models the paths yielded by `glob("{dir}/*.txt")` on this filesystem. -/
def globTxt (fs : FileSystem) (dir : String) : List String :=
  (fs.files.map (·.1)).filter (isDirectTxtChild dir)

/-- Models `WorkReportGenerator::archive_all` (every entry the glob yields on
this model filesystem is a valid UTF-8 path). -/
def archive_all (g : WorkReportGenerator) (fs : FileSystem) :
    Except String FileSystem :=
  archive_all_entries g fs
    ((globTxt fs g.exec_dir).map fun p => Except.ok (some p))

/-! ### Predicates written from the spec's words, for comparison with the
embedded code (used only to exhibit where the code diverges from them). -/

/-- The spec's filter criterion as C1 words it: the filename consists of
exactly 8 digits followed by `.txt`. -/
def specExact8DigitsTxt (name : String) : Bool :=
  (name.data.length == 12) && (name.data.take 8).all Char.isDigit &&
    (name.data.drop 8 == ['.', 't', 'x', 't'])

/-- The shape C8 words as mandatory: an occurrence of 8 consecutive digits
followed by the literal `.txt` suffix (at the end of the filename). -/
def specDigits8DotTxtSuffix (s : String) : Bool :=
  s.data.tails.any fun t =>
    (t.length == 12) && (t.take 8).all Char.isDigit &&
      (t.drop 8 == ['.', 't', 'x', 't'])

/-! ### Helper lemmas about the filesystem model -/

theorem find?_filter_ne (l : List (String × String)) (p q : String)
    (h : q ≠ p) :
    (l.filter fun e => !(e.1 == p)).find? (fun e => e.1 == q) =
      l.find? (fun e => e.1 == q) := by
  have hqp : (q == p) = false := by simpa using h
  have hpq : (p == q) = false := by
    simp only [beq_eq_false_iff_ne]
    exact fun hc => h hc.symm
  induction l with
  | nil => rfl
  | cons e t ih =>
    by_cases hp : e.1 = p
    · simp [List.filter_cons, hp, List.find?_cons, hpq, ih]
    · by_cases hq : e.1 = q
      · simp [List.filter_cons, hp, hq, List.find?_cons, hqp]
      · simp [List.filter_cons, hp, hq, List.find?_cons, ih]

theorem FileSystem.read_write_self (fs : FileSystem) (p c : String) :
    (fs.write p c).read p = some c := by
  simp [FileSystem.read, FileSystem.write, List.find?_cons]

theorem FileSystem.read_write_ne (fs : FileSystem) (p q c : String)
    (h : q ≠ p) : (fs.write p c).read q = fs.read q := by
  have hq : (p == q) = false := by
    simp; exact fun hc => h hc.symm
  simp [FileSystem.read, FileSystem.write, List.find?_cons, hq,
    find?_filter_ne _ _ _ h]

theorem FileSystem.existsFile_write_self (fs : FileSystem) (p c : String) :
    (fs.write p c).existsFile p = true := by
  simp [FileSystem.existsFile, FileSystem.read_write_self]

theorem FileSystem.read_of_existsFile (fs : FileSystem) (p : String)
    (h : fs.existsFile p = true) : ∃ c, fs.read p = some c := by
  unfold FileSystem.existsFile at h
  cases hr : fs.read p with
  | none => rw [hr] at h; simp at h
  | some c => exact ⟨c, rfl⟩

/-! ### Helper lemmas about `create_new` -/

/-- When the destination is absent, `create_new` writes it with the content
of the (possibly freshly generated) template and succeeds. -/
theorem create_new_of_not_exists (g : WorkReportGenerator) (fs : FileSystem)
    (date : String)
    (hdst : fs.existsFile (g.exec_dir ++ "/" ++ date ++ ".txt") = false) :
    ∃ c, (if fs.existsFile (g.exec_dir ++ "/Template.txt") then fs
          else create_template g fs).read (g.exec_dir ++ "/Template.txt") =
            some c ∧
      create_new g fs date =
        Except.ok ((if fs.existsFile (g.exec_dir ++ "/Template.txt") then fs
          else create_template g fs).write (g.exec_dir ++ "/" ++ date ++ ".txt")
            c) := by
  by_cases htpl : fs.existsFile (g.exec_dir ++ "/Template.txt")
  · obtain ⟨c, hc⟩ := FileSystem.read_of_existsFile fs _ htpl
    refine ⟨c, by simp [htpl, hc], ?_⟩
    simp only [create_new, hdst, if_false, htpl, if_true, Bool.false_eq_true,
      copyFile, hc]
  · refine ⟨templateFileContent, ?_, ?_⟩
    · simp only [htpl, if_false, create_template, Bool.false_eq_true]
      exact FileSystem.read_write_self _ _ _
    · simp only [create_new, hdst, Bool.false_eq_true, if_false, htpl,
        copyFile, create_template]
      rw [FileSystem.read_write_self]

/-! ### Claim C9 -/

/-- C9: when the destination file `baseDir/{date}.txt` already exists,
`create_new` returns with no filesystem side effects at all — in particular
it does not generate `Template.txt` even if it is absent, because the
destination check precedes the template check. -/
theorem C9_theorem (g : WorkReportGenerator) (fs : FileSystem) (date : String)
    (h : fs.existsFile (g.exec_dir ++ "/" ++ date ++ ".txt") = true) :
    create_new g fs date = Except.ok fs := by
  simp [create_new, h]

/-- C9 witness: a concrete state whose dated file exists (and whose template
is absent) is returned untouched. -/
theorem C9_witness :
    (FileSystem.existsFile ⟨[("d/20200101.txt", "old")], []⟩
      ("d" ++ "/" ++ "20200101" ++ ".txt") = true) ∧
    create_new ⟨"d"⟩ ⟨[("d/20200101.txt", "old")], []⟩ "20200101" =
      Except.ok ⟨[("d/20200101.txt", "old")], []⟩ :=
  ⟨by decide, C9_theorem ⟨"d"⟩ ⟨[("d/20200101.txt", "old")], []⟩ "20200101"
    (by decide)⟩

/-! ### Claim C6 -/

/-- C6: `create_new` is idempotent — running it a second time with the same
date leaves the state of the first run unchanged (the second run sees the
destination exists and performs no write). -/
theorem C6_theorem (g : WorkReportGenerator) (fs : FileSystem) (date : String) :
    (create_new g fs date).bind (fun fs1 => create_new g fs1 date) =
      create_new g fs date := by
  by_cases hdst : fs.existsFile (g.exec_dir ++ "/" ++ date ++ ".txt")
  · have h1 : create_new g fs date = Except.ok fs := by simp [create_new, hdst]
    rw [h1]
    exact h1
  · obtain ⟨c, -, h1⟩ := create_new_of_not_exists g fs date (by simpa using hdst)
    rw [h1]
    show create_new g _ date = _
    simp [create_new, FileSystem.existsFile_write_self]

/-! ### Claim C4 -/

/-- C4 counterexample: the claim as stated requires only that `Template.txt`
be absent; but when the dated file already exists, `create_new` returns
immediately and `Template.txt` is NOT created (and the dated file's content
is not the template content). -/
theorem C4_counterexample :
    (FileSystem.existsFile ⟨[("d/20200101.txt", "old")], []⟩ "d/Template.txt"
      = false) ∧
    create_new ⟨"d"⟩ ⟨[("d/20200101.txt", "old")], []⟩ "20200101" =
      Except.ok ⟨[("d/20200101.txt", "old")], []⟩ ∧
    (FileSystem.read ⟨[("d/20200101.txt", "old")], []⟩ "d/20200101.txt" =
      some "old") ∧
    "old" ≠ templateFileContent :=
  ⟨by decide, by rfl, by decide, by decide⟩

/-- C4 (amended with the destination also absent): if `Template.txt` and the
dated file are both absent, `create_new` leaves `Template.txt` existing with
the fixed two-section content and the dated file with identical content. -/
theorem C4_theorem (g : WorkReportGenerator) (fs : FileSystem) (date : String)
    (htpl : fs.existsFile (g.exec_dir ++ "/Template.txt") = false)
    (hdst : fs.existsFile (g.exec_dir ++ "/" ++ date ++ ".txt") = false) :
    ∃ fs1, create_new g fs date = Except.ok fs1 ∧
      fs1.read (g.exec_dir ++ "/Template.txt") = some templateFileContent ∧
      fs1.read (g.exec_dir ++ "/" ++ date ++ ".txt") =
        some templateFileContent ∧
      templateFileContent = "<Today's task>\n-\n-\n\n<TODO>\n-\n-\n\n" := by
  obtain ⟨c, hcread, h1⟩ := create_new_of_not_exists g fs date hdst
  rw [htpl] at hcread h1
  simp only [Bool.false_eq_true, if_false] at hcread h1
  have hc : c = templateFileContent := by
    rw [create_template, FileSystem.read_write_self] at hcread
    exact (Option.some.inj hcread).symm
  subst hc
  refine ⟨_, h1, ?_, ?_, rfl⟩
  · by_cases hp : g.exec_dir ++ "/" ++ date ++ ".txt" = g.exec_dir ++ "/Template.txt"
    · rw [← hp]
      exact FileSystem.read_write_self _ _ _
    · rw [FileSystem.read_write_ne _ _ _ _ (fun hq => hp hq.symm)]
      exact hcread
  · exact FileSystem.read_write_self _ _ _

/-- C4 witness: on the empty directory, `create_new "20200101"` produces
`Template.txt` and `20200101.txt`, both with the fixed template content. -/
theorem C4_witness :
    (FileSystem.existsFile ⟨[], []⟩ ("d" ++ "/Template.txt") = false) ∧
    (FileSystem.existsFile ⟨[], []⟩ ("d" ++ "/" ++ "20200101" ++ ".txt")
      = false) ∧
    (∃ fs1, create_new ⟨"d"⟩ ⟨[], []⟩ "20200101" = Except.ok fs1 ∧
      fs1.read ("d" ++ "/Template.txt") = some templateFileContent ∧
      fs1.read ("d" ++ "/" ++ "20200101" ++ ".txt") =
        some templateFileContent ∧
      templateFileContent = "<Today's task>\n-\n-\n\n<TODO>\n-\n-\n\n") :=
  ⟨by decide, by decide,
    C4_theorem ⟨"d"⟩ ⟨[], []⟩ "20200101" (by decide) (by decide)⟩

/-! ### Claim C2 -/

/-- C2 counterexample: a single listing entry whose path is not valid UTF-8
(`to_str()` returns `None`) makes `archive_all`'s loop panic at `unwrap`,
aborting the whole batch — the valid entry after it is never archived —
contradicting "such an entry never aborts or terminates the run". -/
theorem C2_counterexample :
    archive_all_entries ⟨"d"⟩ ⟨[("d/20200826.txt", "A")], []⟩
      [Except.ok none, Except.ok (some "d/20200826.txt")] =
      Except.error "called Option::unwrap on a None value" := by
  rfl

/-- C2 (amended): entries the glob iterator yields as errors (e.g. permission
failures) are indeed skipped silently and the batch continues; but an `Ok`
entry whose path is not valid UTF-8 panics at `to_str().unwrap()`. -/
theorem C2_theorem :
    (∀ (g : WorkReportGenerator) (fs : FileSystem) (rest : List GlobEntry),
      archive_all_entries g fs (Except.error () :: rest) =
        archive_all_entries g fs rest) ∧
    (∀ (g : WorkReportGenerator) (fs : FileSystem) (rest : List GlobEntry),
      archive_all_entries g fs (Except.ok none :: rest) =
        Except.error "called Option::unwrap on a None value") :=
  ⟨fun _ _ _ => rfl, fun _ _ _ => rfl⟩

/-! ### Claim C1 counterexample -/

/-- C1 counterexample: `202008261.txt` does NOT consist of exactly 8 digits
followed by `.txt`, so by the claim `archive_all` must ignore it; but the
unanchored pattern `\d{8}.txt$` matches its last 12 characters, so the file
IS archived (into `Archive/0200/82`, slicing digits 2–9). -/
theorem C1_counterexample :
    specExact8DigitsTxt "202008261.txt" = false ∧
    archive_all ⟨"d"⟩ ⟨[("d/202008261.txt", "X")], []⟩ =
      Except.ok ⟨[("d/Archive/0200/82/202008261.txt", "X"),
        ("d/202008261.txt", "X")], ["d/Archive/0200/82"]⟩ :=
  ⟨by decide, by rfl⟩

/-! ### Claim C3 counterexample -/

/-- C3 counterexample: `202008261.txt` has its first 8 characters digits, yet
the resolver returns `Archive/0200/82` (leftmost regex match starts at the
second character), not `Archive/2020/08`; and `20200826abc.txt`, also of the
claimed form `YYYYMMDD....txt`, makes the resolver panic instead of
returning a path. -/
theorem C3_counterexample :
    generate_partial_path_for_archive_dir "202008261.txt" =
      Except.ok "Archive/0200/82" ∧
    generate_partial_path_for_archive_dir "20200826abc.txt" =
      Except.error "called Option::unwrap on a None value" :=
  ⟨by rfl, by rfl⟩

/-! ### Claim C8 counterexample -/

/-- C8 counterexample: `20200826Xtxt` contains no occurrence of 8 digits
followed by `.txt` (there is no dot at all), so by the claim the resolver
must abort; but the regex `.` is a wildcard, so the resolver returns
`Archive/2020/08` instead of failing. -/
theorem C8_counterexample :
    specDigits8DotTxtSuffix "20200826Xtxt" = false ∧
    generate_partial_path_for_archive_dir "20200826Xtxt" =
      Except.ok "Archive/2020/08" :=
  ⟨by decide, by rfl⟩

/-! ### The MD5 digest is 128 bits -/

theorem md5Bytes_lt (msg : List Nat) : md5Bytes msg < 2 ^ 128 := by
  have h32 : 0 < 4294967296 := by norm_num
  simp only [md5Bytes]
  generalize md5Process (0x67452301, 0xefcdab89, 0x98badcfe, 0x10325476)
    (toWords (padMd5 msg)) = st
  obtain ⟨a, b, c, d⟩ := st
  have ha := Nat.mod_lt a h32
  have hb := Nat.mod_lt b h32
  have hc := Nat.mod_lt c h32
  have hd := Nat.mod_lt d h32
  have e32 : (2 : Nat) ^ 32 = 4294967296 := by norm_num
  have e64 : (2 : Nat) ^ 64 = 18446744073709551616 := by norm_num
  have e96 : (2 : Nat) ^ 96 = 79228162514264337593543950336 := by norm_num
  have e128 : (2 : Nat) ^ 128 = 340282366920938463463374607431768211456 := by
    norm_num
  dsimp only
  rw [e32, e64, e96, e128]
  omega

/-! ### Claim C7 -/

/-- C7: the change detector `updated` returns `true` exactly when the
128-bit MD5 digests of the two files' text contents differ; in particular it
returns `false` for byte-identical contents. -/
theorem C7_theorem (fs : FileSystem) (p1 p2 c1 c2 : String)
    (h1 : fs.read p1 = some c1) (h2 : fs.read p2 = some c2) :
    (updated fs p1 p2 = Except.ok true ↔ md5Str c1 ≠ md5Str c2) ∧
    (c1 = c2 → updated fs p1 p2 = Except.ok false) ∧
    md5Str c1 < 2 ^ 128 := by
  refine ⟨?_, ?_, md5Bytes_lt _⟩
  · simp [updated, h1, h2]
  · intro he
    subst he
    simp [updated, h1, h2]

/-- C7 witness: two concrete files with identical content; the detector
reports no change. -/
theorem C7_witness :
    (FileSystem.read ⟨[("d/a.txt", "hi"), ("d/b.txt", "hi")], []⟩ "d/a.txt" =
      some "hi") ∧
    (FileSystem.read ⟨[("d/a.txt", "hi"), ("d/b.txt", "hi")], []⟩ "d/b.txt" =
      some "hi") ∧
    ((updated ⟨[("d/a.txt", "hi"), ("d/b.txt", "hi")], []⟩ "d/a.txt" "d/b.txt"
        = Except.ok true ↔ md5Str "hi" ≠ md5Str "hi") ∧
      ("hi" = "hi" →
        updated ⟨[("d/a.txt", "hi"), ("d/b.txt", "hi")], []⟩ "d/a.txt" "d/b.txt"
          = Except.ok false) ∧
      md5Str "hi" < 2 ^ 128) :=
  ⟨by rfl, by rfl,
    C7_theorem ⟨[("d/a.txt", "hi"), ("d/b.txt", "hi")], []⟩ "d/a.txt" "d/b.txt"
      "hi" "hi" (by rfl) (by rfl)⟩

/-! ### Characterizations of the embedded regular expressions -/

theorem matchYmdAt_eq_some_iff (l : List Char) (y m : String) :
    matchYmdAt l = some (y, m) ↔
      ∃ ds c post, l = ds ++ c :: 't' :: 'x' :: 't' :: post ∧
        ds.length = 8 ∧ (∀ ch ∈ ds, ch.isDigit = true) ∧ c ≠ '\n' ∧
        y = ⟨ds.take 4⟩ ∧ m = ⟨(ds.drop 4).take 2⟩ := by
  constructor
  · intro h
    unfold matchYmdAt at h
    by_cases hcond : ((l.take 8).length == 8 && (l.take 8).all Char.isDigit)
      = true
    · rw [if_pos hcond] at h
      split at h
      · rename_i c t1 t2 t3 tail hdrop
        by_cases hif : (c != '\n' && t1 == 't' && t2 == 'x' && t3 == 't')
          = true
        · rw [if_pos hif] at h
          have h' := Option.some.inj h
          cases h'
          simp only [Bool.and_eq_true, bne_iff_ne, ne_eq, beq_iff_eq]
            at hif hcond
          obtain ⟨⟨⟨hc, h1⟩, h2⟩, h3⟩ := hif
          subst h1; subst h2; subst h3
          refine ⟨l.take 8, c, tail, ?_, hcond.1, ?_, hc, rfl, rfl⟩
          · rw [← hdrop]
            exact (List.take_append_drop 8 l).symm
          · intro ch hch
            exact List.all_eq_true.1 hcond.2 ch hch
        · rw [if_neg hif] at h
          exact absurd h (by simp)
      · exact absurd h (by simp)
    · rw [if_neg hcond] at h
      exact absurd h (by simp)
  · rintro ⟨ds, c, post, rfl, h8, hdig, hc, rfl, rfl⟩
    unfold matchYmdAt
    rw [List.take_left' h8, List.drop_left' h8]
    have hcond : ((ds.length == 8 && ds.all Char.isDigit)) = true := by
      simp only [Bool.and_eq_true, beq_iff_eq, List.all_eq_true]
      exact ⟨h8, hdig⟩
    rw [if_pos hcond]
    dsimp only
    have hif : (c != '\n' && 't' == 't' && 'x' == 'x' && 't' == 't') = true := by
      simp [hc]
    rw [if_pos hif]

theorem findYmd_cons_of_match (x : Char) (xs : List Char) (r : String × String)
    (h : matchYmdAt (x :: xs) = some r) : findYmd (x :: xs) = some r := by
  unfold findYmd
  rw [h]

theorem findYmd_eq_some_val (l : List Char) (y m : String)
    (h : findYmd l = some (y, m)) :
    ∃ pre ds c post, l = pre ++ (ds ++ c :: 't' :: 'x' :: 't' :: post) ∧
      ds.length = 8 ∧ (∀ ch ∈ ds, ch.isDigit = true) ∧ c ≠ '\n' ∧
      y = ⟨ds.take 4⟩ ∧ m = ⟨(ds.drop 4).take 2⟩ := by
  induction l with
  | nil => exact absurd h (by simp [findYmd])
  | cons x xs ih =>
    unfold findYmd at h
    rcases hm : matchYmdAt (x :: xs) with _ | r
    · rw [hm] at h
      obtain ⟨pre, ds, c, post, hl, h8, hdig, hc, hy, hmm⟩ := ih h
      exact ⟨x :: pre, ds, c, post, by rw [List.cons_append, ← hl], h8, hdig,
        hc, hy, hmm⟩
    · rw [hm] at h
      obtain rfl : r = (y, m) := Option.some.inj h
      obtain ⟨ds, c, post, hl, h8, hdig, hc, hy, hmm⟩ :=
        (matchYmdAt_eq_some_iff _ y m).1 hm
      exact ⟨[], ds, c, post, by simpa using hl, h8, hdig, hc, hy, hmm⟩

theorem findYmd_isSome_iff (l : List Char) :
    (findYmd l).isSome = true ↔
      ∃ pre ds c post, l = pre ++ (ds ++ c :: 't' :: 'x' :: 't' :: post) ∧
        ds.length = 8 ∧ (∀ ch ∈ ds, ch.isDigit = true) ∧ c ≠ '\n' := by
  induction l with
  | nil =>
    constructor
    · intro h
      exact absurd h (by simp [findYmd])
    · rintro ⟨pre, ds, c, post, hl, h8, -, -⟩
      have hlen := congrArg List.length hl
      simp [h8] at hlen
      omega
  | cons x xs ih =>
    rcases hm : matchYmdAt (x :: xs) with _ | r
    · have hstep : findYmd (x :: xs) = findYmd xs := by
        conv_lhs => rw [findYmd]
        rw [hm]
      rw [hstep, ih]
      constructor
      · rintro ⟨pre, ds, c, post, hl, h8, hdig, hc⟩
        exact ⟨x :: pre, ds, c, post, by rw [List.cons_append, ← hl], h8,
          hdig, hc⟩
      · rintro ⟨pre, ds, c, post, hl, h8, hdig, hc⟩
        rcases pre with _ | ⟨p, pre⟩
        · exfalso
          have hsome : matchYmdAt (x :: xs) =
              some (⟨ds.take 4⟩, ⟨(ds.drop 4).take 2⟩) :=
            (matchYmdAt_eq_some_iff _ _ _).2
              ⟨ds, c, post, by simpa using hl, h8, hdig, hc, rfl, rfl⟩
          rw [hm] at hsome
          exact absurd hsome (by simp)
        · rw [List.cons_append] at hl
          injection hl with hhead hxs
          exact ⟨pre, ds, c, post, hxs, h8, hdig, hc⟩
    · rw [findYmd_cons_of_match _ _ _ hm]
      simp only [Option.isSome_some, true_iff]
      obtain ⟨y, m⟩ := r
      obtain ⟨ds, c, post, hl, h8, hdig, hc, -, -⟩ :=
        (matchYmdAt_eq_some_iff _ y m).1 hm
      exact ⟨[], ds, c, post, by simpa using hl, h8, hdig, hc⟩

/-! ### Claim C8 theorem -/

/-- C8 (amended): the resolver fails fatally exactly when the filename
contains no occurrence of 8 consecutive digits followed by one arbitrary
non-newline character and the letters `txt` — neither the literal dot nor
the end-of-name position is enforced by the unanchored pattern. -/
theorem C8_theorem (s : String) :
    (∃ e, generate_partial_path_for_archive_dir s = Except.error e) ↔
      ¬ ∃ pre ds c post,
        s.data = pre ++ (ds ++ c :: 't' :: 'x' :: 't' :: post) ∧
        ds.length = 8 ∧ (∀ ch ∈ ds, ch.isDigit = true) ∧ c ≠ '\n' := by
  rw [← findYmd_isSome_iff]
  unfold generate_partial_path_for_archive_dir
  cases h : findYmd s.data with
  | none => simp
  | some r =>
    obtain ⟨y, m⟩ := r
    simp

/-! ### Claim C3 theorem -/

/-- C3 (amended to names whose 8-digit run is immediately followed by the
matched character and `txt`): for a filename made of 8 digits followed by
`.txt`, the resolver returns `Archive/` + the first four digits + `/` + the
next two digits.  (For other names of the claimed form `YYYYMMDD....txt`
the resolver does not slice positionally from the front: see the
counterexample.) -/
theorem C3_theorem (s : String) (h8 : s.data.length = 8)
    (hd : ∀ ch ∈ s.data, ch.isDigit = true) :
    generate_partial_path_for_archive_dir (s ++ ".txt") =
      Except.ok ("Archive/" ++ String.mk (s.data.take 4) ++ "/" ++
        String.mk ((s.data.drop 4).take 2)) := by
  have hdata : (s ++ ".txt").data = s.data ++ '.' :: 't' :: 'x' :: 't' :: [] := by
    simp [String.data_append]
  have hm : matchYmdAt ((s ++ ".txt").data) =
      some (⟨s.data.take 4⟩, ⟨(s.data.drop 4).take 2⟩) :=
    (matchYmdAt_eq_some_iff _ _ _).2
      ⟨s.data, '.', [], hdata, h8, hd, by decide, rfl, rfl⟩
  obtain ⟨a, xs, hx⟩ : ∃ a xs, (s ++ ".txt").data = a :: xs := by
    rcases hsd : (s ++ ".txt").data with _ | ⟨a, xs⟩
    · exfalso
      rw [hsd] at hdata
      have := congrArg List.length hdata
      simp at this
    · exact ⟨a, xs, rfl⟩
  unfold generate_partial_path_for_archive_dir
  rw [hx] at hm ⊢
  rw [findYmd_cons_of_match _ _ _ hm]

/-- C3 witness: the resolver maps `20200826.txt` to `Archive/2020/08`. -/
theorem C3_witness :
    "20200826".data.length = 8 ∧
    (∀ ch ∈ "20200826".data, ch.isDigit = true) ∧
    generate_partial_path_for_archive_dir ("20200826" ++ ".txt") =
      Except.ok ("Archive/" ++ String.mk ("20200826".data.take 4) ++ "/" ++
        String.mk (("20200826".data.drop 4).take 2)) :=
  ⟨by decide, by decide, C3_theorem "20200826" (by decide) (by decide)⟩

/-! ### Claim C1 theorem -/

theorem matchTailPat_iff (t : List Char) :
    matchTailPat t = true ↔
      ∃ ds c, t = ds ++ [c, 't', 'x', 't'] ∧ ds.length = 8 ∧
        (∀ ch ∈ ds, ch.isDigit = true) ∧ c ≠ '\n' := by
  constructor
  · intro h
    unfold matchTailPat at h
    simp only [Bool.and_eq_true, beq_iff_eq] at h
    obtain ⟨⟨hlen, hdig⟩, hmatch⟩ := h
    rcases hdrop : t.drop 8 with _ | ⟨c, _ | ⟨t1, _ | ⟨t2, _ | ⟨t3, _ | ⟨t4, rest⟩⟩⟩⟩⟩ <;>
      rw [hdrop] at hmatch
    · exact absurd hmatch (by simp)
    · exact absurd hmatch (by simp)
    · exact absurd hmatch (by simp)
    · exact absurd hmatch (by simp)
    · simp only [Bool.and_eq_true, bne_iff_ne, ne_eq, beq_iff_eq] at hmatch
      obtain ⟨⟨⟨hc, h1⟩, h2⟩, h3⟩ := hmatch
      subst h1; subst h2; subst h3
      refine ⟨t.take 8, c, ?_, ?_, ?_, hc⟩
      · rw [← hdrop]
        exact (List.take_append_drop 8 t).symm
      · have := congrArg List.length hdrop
        simp [List.length_drop] at this ⊢
        omega
      · intro ch hch
        exact List.all_eq_true.1 hdig ch hch
    · exfalso
      have := congrArg List.length hdrop
      simp [List.length_drop, hlen] at this
  · rintro ⟨ds, c, rfl, h8, hdig, hc⟩
    unfold matchTailPat
    rw [List.take_left' h8, List.drop_left' h8]
    simp only [Bool.and_eq_true, beq_iff_eq]
    refine ⟨⟨by simp [h8], List.all_eq_true.2 hdig⟩, ?_⟩
    simp [hc]

theorem matchesArchivePattern_iff (s : String) :
    matchesArchivePattern s = true ↔
      ∃ ds c, ds.length = 8 ∧ (∀ ch ∈ ds, ch.isDigit = true) ∧ c ≠ '\n' ∧
        (ds ++ [c, 't', 'x', 't']) <:+ s.data := by
  unfold matchesArchivePattern
  rw [List.any_eq_true]
  constructor
  · rintro ⟨t, ht, hmt⟩
    rw [List.mem_tails] at ht
    obtain ⟨ds, c, rfl, h8, hdig, hc⟩ := (matchTailPat_iff t).1 hmt
    exact ⟨ds, c, h8, hdig, hc, ht⟩
  · rintro ⟨ds, c, h8, hdig, hc, hsuf⟩
    exact ⟨ds ++ [c, 't', 'x', 't'], (List.mem_tails _ _).2 hsuf,
      (matchTailPat_iff _).2 ⟨ds, c, rfl, h8, hdig, hc⟩⟩

/-- C1 (amended): during `archive_all`, a listed entry is archived if and
only if the unanchored pattern `\d{8}.txt$` matches its full path — i.e.
the path ends in 8 digits followed by one arbitrary non-newline character
and `txt`.  `notes.txt` and `202008.txt` are ignored and `20200826.txt` is
archived as claimed, but `202008261.txt` (nine digits) is archived too,
contrary to the claim. -/
theorem C1_theorem :
    (∀ (g : WorkReportGenerator) (fs : FileSystem) (rest : List GlobEntry)
      (p : String),
      archive_all_entries g fs (Except.ok (some p) :: rest) =
        if matchesArchivePattern p then
          match archive g fs p with
          | Except.error e => Except.error e
          | Except.ok fs1 => archive_all_entries g fs1 rest
        else archive_all_entries g fs rest) ∧
    (∀ s : String, matchesArchivePattern s = true ↔
      ∃ ds c, ds.length = 8 ∧ (∀ ch ∈ ds, ch.isDigit = true) ∧ c ≠ '\n' ∧
        (ds ++ [c, 't', 'x', 't']) <:+ s.data) ∧
    matchesArchivePattern "d/notes.txt" = false ∧
    matchesArchivePattern "d/202008.txt" = false ∧
    matchesArchivePattern "d/20200826.txt" = true ∧
    matchesArchivePattern "d/202008261.txt" = true :=
  ⟨fun _ _ _ _ => rfl, matchesArchivePattern_iff,
    by decide, by decide, by decide, by decide⟩

/-! ### The conditional-copy behavior of `archive` -/

/-- Full behavior of `archive` on a resolvable source path: absent
destination is copied unconditionally; an existing destination is
overwritten exactly when the MD5 digests of the two contents differ. -/
theorem archive_behavior (g : WorkReportGenerator) (fs : FileSystem)
    (src_path root pp : String)
    (hroot : fileNameOf src_path = some root)
    (hpp : generate_partial_path_for_archive_dir root = Except.ok pp)
    (c1 : String) (hsrc : fs.read src_path = some c1) :
    (fs.read (g.exec_dir ++ "/" ++ pp ++ "/" ++ root) = none →
      archive g fs src_path = Except.ok
        ((fs.createDirAll (g.exec_dir ++ "/" ++ pp)).write
          (g.exec_dir ++ "/" ++ pp ++ "/" ++ root) c1)) ∧
    (∀ c2, fs.read (g.exec_dir ++ "/" ++ pp ++ "/" ++ root) = some c2 →
      (md5Str c1 = md5Str c2 →
        archive g fs src_path =
          Except.ok (fs.createDirAll (g.exec_dir ++ "/" ++ pp))) ∧
      (md5Str c1 ≠ md5Str c2 →
        archive g fs src_path = Except.ok
          ((fs.createDirAll (g.exec_dir ++ "/" ++ pp)).write
            (g.exec_dir ++ "/" ++ pp ++ "/" ++ root) c1))) := by
  have harch : archive g fs src_path =
      (if (fs.createDirAll (g.exec_dir ++ "/" ++ pp)).existsFile
          (g.exec_dir ++ "/" ++ pp ++ "/" ++ root) then
        match updated (fs.createDirAll (g.exec_dir ++ "/" ++ pp)) src_path
            (g.exec_dir ++ "/" ++ pp ++ "/" ++ root) with
        | Except.error e => Except.error e
        | Except.ok true =>
          copyFile (fs.createDirAll (g.exec_dir ++ "/" ++ pp)) src_path
            (g.exec_dir ++ "/" ++ pp ++ "/" ++ root) "cannot copy the file."
        | Except.ok false =>
          Except.ok (fs.createDirAll (g.exec_dir ++ "/" ++ pp))
      else
        copyFile (fs.createDirAll (g.exec_dir ++ "/" ++ pp)) src_path
          (g.exec_dir ++ "/" ++ pp ++ "/" ++ root) "cannot copy the file.") := by
    unfold archive
    rw [hroot]
    dsimp only
    rw [hpp]
  have hsrc1 : (fs.createDirAll (g.exec_dir ++ "/" ++ pp)).read src_path
      = some c1 := hsrc
  constructor
  · intro hnone
    have hex : (fs.createDirAll (g.exec_dir ++ "/" ++ pp)).existsFile
        (g.exec_dir ++ "/" ++ pp ++ "/" ++ root) = false := by
      unfold FileSystem.existsFile
      have hn : (fs.createDirAll (g.exec_dir ++ "/" ++ pp)).read
          (g.exec_dir ++ "/" ++ pp ++ "/" ++ root) = none := hnone
      rw [hn]
      rfl
    rw [harch, if_neg (by simp [hex])]
    unfold copyFile
    rw [hsrc1]
  · intro c2 hsome
    have hex : (fs.createDirAll (g.exec_dir ++ "/" ++ pp)).existsFile
        (g.exec_dir ++ "/" ++ pp ++ "/" ++ root) = true := by
      unfold FileSystem.existsFile
      have hn : (fs.createDirAll (g.exec_dir ++ "/" ++ pp)).read
          (g.exec_dir ++ "/" ++ pp ++ "/" ++ root) = some c2 := hsome
      rw [hn]
      rfl
    have hup : updated (fs.createDirAll (g.exec_dir ++ "/" ++ pp)) src_path
        (g.exec_dir ++ "/" ++ pp ++ "/" ++ root) =
        Except.ok (decide (md5Str c1 ≠ md5Str c2)) := by
      unfold updated
      rw [hsrc1]
      have hn : (fs.createDirAll (g.exec_dir ++ "/" ++ pp)).read
          (g.exec_dir ++ "/" ++ pp ++ "/" ++ root) = some c2 := hsome
      rw [hn]
    constructor
    · intro heq
      rw [harch, if_pos hex, hup]
      have : decide (md5Str c1 ≠ md5Str c2) = false := by simp [heq]
      rw [this]
    · intro hne
      rw [harch, if_pos hex, hup]
      have : decide (md5Str c1 ≠ md5Str c2) = true := by simp [hne]
      rw [this]
      unfold copyFile
      rw [hsrc1]

/-! ### Claim C5 -/

/-- C5 (amended): `archive` copies unconditionally when the destination is
absent; when the destination exists it overwrites exactly when the MD5
digests differ — equal digests (in particular equal contents) leave the
destination unmodified, but differing contents with colliding digests are
NOT re-copied (see the counterexample). -/
theorem C5_theorem (g : WorkReportGenerator) (fs : FileSystem)
    (src_path root pp : String)
    (hroot : fileNameOf src_path = some root)
    (hpp : generate_partial_path_for_archive_dir root = Except.ok pp)
    (c1 : String) (hsrc : fs.read src_path = some c1) :
    (fs.read (g.exec_dir ++ "/" ++ pp ++ "/" ++ root) = none →
      archive g fs src_path = Except.ok
        ((fs.createDirAll (g.exec_dir ++ "/" ++ pp)).write
          (g.exec_dir ++ "/" ++ pp ++ "/" ++ root) c1)) ∧
    (∀ c2, fs.read (g.exec_dir ++ "/" ++ pp ++ "/" ++ root) = some c2 →
      (md5Str c1 = md5Str c2 →
        archive g fs src_path =
          Except.ok (fs.createDirAll (g.exec_dir ++ "/" ++ pp))) ∧
      (md5Str c1 ≠ md5Str c2 →
        archive g fs src_path = Except.ok
          ((fs.createDirAll (g.exec_dir ++ "/" ++ pp)).write
            (g.exec_dir ++ "/" ++ pp ++ "/" ++ root) c1))) :=
  archive_behavior g fs src_path root pp hroot hpp c1 hsrc

/-- C5 witness: a source already archived with identical content; the second
`archive` call only (re)creates the directory and leaves the files alone. -/
theorem C5_witness :
    fileNameOf "d/20200826.txt" = some "20200826.txt" ∧
    generate_partial_path_for_archive_dir "20200826.txt" =
      Except.ok "Archive/2020/08" ∧
    FileSystem.read ⟨[("d/20200826.txt", "A"),
      ("d/Archive/2020/08/20200826.txt", "A")], []⟩ "d/20200826.txt" =
      some "A" ∧
    ((FileSystem.read ⟨[("d/20200826.txt", "A"),
        ("d/Archive/2020/08/20200826.txt", "A")], []⟩
        ((⟨"d"⟩ : WorkReportGenerator).exec_dir ++ "/" ++ "Archive/2020/08" ++
          "/" ++ "20200826.txt") = none →
      archive ⟨"d"⟩ ⟨[("d/20200826.txt", "A"),
          ("d/Archive/2020/08/20200826.txt", "A")], []⟩ "d/20200826.txt" =
        Except.ok ((FileSystem.createDirAll ⟨[("d/20200826.txt", "A"),
            ("d/Archive/2020/08/20200826.txt", "A")], []⟩
            ((⟨"d"⟩ : WorkReportGenerator).exec_dir ++ "/" ++
              "Archive/2020/08")).write
          ((⟨"d"⟩ : WorkReportGenerator).exec_dir ++ "/" ++ "Archive/2020/08"
            ++ "/" ++ "20200826.txt") "A")) ∧
    (∀ c2, FileSystem.read ⟨[("d/20200826.txt", "A"),
        ("d/Archive/2020/08/20200826.txt", "A")], []⟩
        ((⟨"d"⟩ : WorkReportGenerator).exec_dir ++ "/" ++ "Archive/2020/08" ++
          "/" ++ "20200826.txt") = some c2 →
      (md5Str "A" = md5Str c2 →
        archive ⟨"d"⟩ ⟨[("d/20200826.txt", "A"),
            ("d/Archive/2020/08/20200826.txt", "A")], []⟩ "d/20200826.txt" =
          Except.ok (FileSystem.createDirAll ⟨[("d/20200826.txt", "A"),
            ("d/Archive/2020/08/20200826.txt", "A")], []⟩
            ((⟨"d"⟩ : WorkReportGenerator).exec_dir ++ "/" ++
              "Archive/2020/08"))) ∧
      (md5Str "A" ≠ md5Str c2 →
        archive ⟨"d"⟩ ⟨[("d/20200826.txt", "A"),
            ("d/Archive/2020/08/20200826.txt", "A")], []⟩ "d/20200826.txt" =
          Except.ok ((FileSystem.createDirAll ⟨[("d/20200826.txt", "A"),
              ("d/Archive/2020/08/20200826.txt", "A")], []⟩
              ((⟨"d"⟩ : WorkReportGenerator).exec_dir ++ "/" ++
                "Archive/2020/08")).write
            ((⟨"d"⟩ : WorkReportGenerator).exec_dir ++ "/" ++
              "Archive/2020/08" ++ "/" ++ "20200826.txt") "A")))) :=
  ⟨rfl, rfl, rfl,
    C5_theorem ⟨"d"⟩ ⟨[("d/20200826.txt", "A"),
      ("d/Archive/2020/08/20200826.txt", "A")], []⟩ "d/20200826.txt"
      "20200826.txt" "Archive/2020/08" rfl rfl "A" rfl⟩

/-- MD5 maps infinitely many strings into a 128-bit range, so two distinct
contents share a digest. -/
theorem md5Str_collision : ∃ a b : String, a ≠ b ∧ md5Str a = md5Str b := by
  obtain ⟨n, m, hnm, heq⟩ := Finite.exists_ne_map_eq_of_infinite
    (fun n : ℕ =>
      (⟨md5Str ⟨List.replicate n 'a'⟩, md5Bytes_lt _⟩ : Fin (2 ^ 128)))
  refine ⟨⟨List.replicate n 'a'⟩, ⟨List.replicate m 'a'⟩, ?_, ?_⟩
  · intro hc
    apply hnm
    have hdata : List.replicate n 'a' = List.replicate m 'a' :=
      congrArg String.data hc
    have hlen := congrArg List.length hdata
    simpa using hlen
  · simpa using congrArg Fin.val heq

/-- C5 counterexample: two files whose contents differ but whose MD5 digests
collide; the claim demands an overwrite, yet `archive` leaves the stale
destination content in place. -/
theorem C5_counterexample :
    ∃ c1 c2 : String, c1 ≠ c2 ∧
      ∃ fs1, archive ⟨"d"⟩
          ⟨[("d/20200101.txt", c1), ("d/Archive/2020/01/20200101.txt", c2)],
            []⟩ "d/20200101.txt" = Except.ok fs1 ∧
        fs1.read "d/Archive/2020/01/20200101.txt" = some c2 := by
  obtain ⟨c1, c2, hne, hmd⟩ := md5Str_collision
  refine ⟨c1, c2, hne, FileSystem.createDirAll
    ⟨[("d/20200101.txt", c1), ("d/Archive/2020/01/20200101.txt", c2)], []⟩
    ("d" ++ "/" ++ "Archive/2020/01"), ?_, ?_⟩
  · exact ((archive_behavior ⟨"d"⟩
      ⟨[("d/20200101.txt", c1), ("d/Archive/2020/01/20200101.txt", c2)], []⟩
      "d/20200101.txt" "20200101.txt" "Archive/2020/01" rfl rfl c1 rfl).2
        c2 rfl).1 hmd
  · rfl

/-! ### Claim C10 -/

theorem list_len8 {α : Type} {l : List α} (h : l.length = 8) :
    ∃ a b c d e f g h8, l = [a, b, c, d, e, f, g, h8] := by
  rcases l with _ | ⟨a, l⟩
  · simp at h
  rcases l with _ | ⟨b, l⟩
  · simp at h
  rcases l with _ | ⟨c, l⟩
  · simp at h
  rcases l with _ | ⟨d, l⟩
  · simp at h
  rcases l with _ | ⟨e, l⟩
  · simp at h
  rcases l with _ | ⟨f, l⟩
  · simp at h
  rcases l with _ | ⟨g, l⟩
  · simp at h
  rcases l with _ | ⟨h8, l⟩
  · simp at h
  rcases l with _ | ⟨i, l⟩
  · exact ⟨a, b, c, d, e, f, g, h8, rfl⟩
  · exfalso
    simp [List.length_cons] at h

/-- C10: a successful `archive` call touches only the archive subtree: it
creates the one directory `{baseDir}/Archive/{year}/{month}` and (at most)
writes the one file `{filename}` inside it, where year and month are the
4-digit and 2-digit slices taken from the filename; every other path —
including the source file — reads exactly as before. -/
theorem C10_theorem (g : WorkReportGenerator) (fs fs1 : FileSystem)
    (src_path : String)
    (h : archive g fs src_path = Except.ok fs1) :
    ∃ root y m, fileNameOf src_path = some root ∧
      y.data.length = 4 ∧ (∀ ch ∈ y.data, ch.isDigit = true) ∧
      m.data.length = 2 ∧ (∀ ch ∈ m.data, ch.isDigit = true) ∧
      (y.data ++ m.data) <:+: root.data ∧
      fs1.dirs = (g.exec_dir ++ "/" ++ ("Archive/" ++ y ++ "/" ++ m)) ::
        fs.dirs ∧
      (∀ p, p ≠ g.exec_dir ++ "/" ++ ("Archive/" ++ y ++ "/" ++ m) ++ "/" ++
          root → fs1.read p = fs.read p) ∧
      fs1.read src_path = fs.read src_path := by
  unfold archive at h
  rcases hroot : fileNameOf src_path with _ | root
  · rw [hroot] at h
    exact absurd h (by simp)
  rw [hroot] at h
  dsimp only at h
  rcases hpp : generate_partial_path_for_archive_dir root with e | pp
  · rw [hpp] at h
    exact absurd h (by simp)
  rw [hpp] at h
  dsimp only at h
  obtain ⟨y, m, hf, rfl⟩ : ∃ y m, findYmd root.data = some (y, m) ∧
      pp = "Archive/" ++ y ++ "/" ++ m := by
    unfold generate_partial_path_for_archive_dir at hpp
    rcases hfy : findYmd root.data with _ | r
    · rw [hfy] at hpp
      exact absurd hpp (by simp)
    · obtain ⟨y, m⟩ := r
      rw [hfy] at hpp
      dsimp only at hpp
      exact ⟨y, m, rfl, (Except.ok.inj hpp).symm⟩
  obtain ⟨pre, ds, c, post, hl, h8, hdig, hc, hy, hm⟩ :=
    findYmd_eq_some_val _ y m hf
  obtain ⟨d1, d2, d3, d4, d5, d6, d7, d8, rfl⟩ := list_len8 h8
  have hydata : y.data = [d1, d2, d3, d4] := by
    rw [hy]
    rfl
  have hmdata : m.data = [d5, d6] := by
    rw [hm]
    rfl
  have hylen : y.data.length = 4 := by
    rw [hydata]
    rfl
  have hmlen : m.data.length = 2 := by
    rw [hmdata]
    rfl
  have hydig : ∀ ch ∈ y.data, ch.isDigit = true := by
    rw [hydata]
    intro ch hch
    simp only [List.mem_cons, List.not_mem_nil, or_false] at hch
    rcases hch with rfl | rfl | rfl | rfl <;> apply hdig <;> simp
  have hmdig : ∀ ch ∈ m.data, ch.isDigit = true := by
    rw [hmdata]
    intro ch hch
    simp only [List.mem_cons, List.not_mem_nil, or_false] at hch
    rcases hch with rfl | rfl <;> apply hdig <;> simp
  have hinf : (y.data ++ m.data) <:+: root.data := by
    rw [hydata, hmdata, hl]
    exact ⟨pre, d7 :: d8 :: c :: 't' :: 'x' :: 't' :: post, by simp⟩
  refine ⟨root, y, m, rfl, hylen, hydig, hmlen, hmdig, hinf, ?_⟩
  by_cases hex : (fs.createDirAll (g.exec_dir ++ "/" ++
      ("Archive/" ++ y ++ "/" ++ m))).existsFile
      (g.exec_dir ++ "/" ++ ("Archive/" ++ y ++ "/" ++ m) ++ "/" ++ root)
      = true
  · rw [if_pos hex] at h
    rcases hu : updated (fs.createDirAll (g.exec_dir ++ "/" ++
        ("Archive/" ++ y ++ "/" ++ m))) src_path
        (g.exec_dir ++ "/" ++ ("Archive/" ++ y ++ "/" ++ m) ++ "/" ++ root)
        with e | b
    · rw [hu] at h
      exact absurd h (by simp)
    rw [hu] at h
    rcases b with _ | _
    · dsimp only at h
      obtain rfl := (Except.ok.inj h).symm
      exact ⟨rfl, fun p hp => rfl, rfl⟩
    · dsimp only at h
      unfold copyFile at h
      rcases hr : (fs.createDirAll (g.exec_dir ++ "/" ++
          ("Archive/" ++ y ++ "/" ++ m))).read src_path with _ | cs
      · rw [hr] at h
        exact absurd h (by simp)
      rw [hr] at h
      obtain rfl := (Except.ok.inj h).symm
      have hne : src_path ≠ g.exec_dir ++ "/" ++
          ("Archive/" ++ y ++ "/" ++ m) ++ "/" ++ root := by
        intro heq
        unfold updated at hu
        rw [hr] at hu
        rcases hd2 : (fs.createDirAll (g.exec_dir ++ "/" ++
            ("Archive/" ++ y ++ "/" ++ m))).read
            (g.exec_dir ++ "/" ++ ("Archive/" ++ y ++ "/" ++ m) ++ "/" ++ root)
            with _ | cd
        · rw [← heq, hr] at hd2
          exact absurd hd2 (by simp)
        · rw [hd2] at hu
          have hb := Except.ok.inj hu
          rw [← heq, hr] at hd2
          obtain rfl := Option.some.inj hd2
          simp at hb
      refine ⟨rfl, ?_, ?_⟩
      · intro p hp
        exact FileSystem.read_write_ne _ _ _ _ hp
      · exact FileSystem.read_write_ne _ _ _ _ hne
  · rw [if_neg hex] at h
    unfold copyFile at h
    rcases hr : (fs.createDirAll (g.exec_dir ++ "/" ++
        ("Archive/" ++ y ++ "/" ++ m))).read src_path with _ | cs
    · rw [hr] at h
      exact absurd h (by simp)
    rw [hr] at h
    obtain rfl := (Except.ok.inj h).symm
    have hne : src_path ≠ g.exec_dir ++ "/" ++
        ("Archive/" ++ y ++ "/" ++ m) ++ "/" ++ root := by
      intro heq
      apply hex
      unfold FileSystem.existsFile
      rw [← heq, hr]
      rfl
    refine ⟨rfl, ?_, ?_⟩
    · intro p hp
      exact FileSystem.read_write_ne _ _ _ _ hp
    · exact FileSystem.read_write_ne _ _ _ _ hne

/-- C10 witness: archiving `d/20200826.txt` into a fresh tree creates only
`d/Archive/2020/08` and the copy inside it. -/
theorem C10_witness :
    archive ⟨"d"⟩ ⟨[("d/20200826.txt", "A")], []⟩ "d/20200826.txt" =
      Except.ok ⟨[("d/Archive/2020/08/20200826.txt", "A"),
        ("d/20200826.txt", "A")], ["d/Archive/2020/08"]⟩ ∧
    (∃ root y m, fileNameOf "d/20200826.txt" = some root ∧
      y.data.length = 4 ∧ (∀ ch ∈ y.data, ch.isDigit = true) ∧
      m.data.length = 2 ∧ (∀ ch ∈ m.data, ch.isDigit = true) ∧
      (y.data ++ m.data) <:+: root.data ∧
      (FileSystem.mk [("d/Archive/2020/08/20200826.txt", "A"),
        ("d/20200826.txt", "A")] ["d/Archive/2020/08"]).dirs =
        ((⟨"d"⟩ : WorkReportGenerator).exec_dir ++ "/" ++
          ("Archive/" ++ y ++ "/" ++ m)) ::
          (FileSystem.mk [("d/20200826.txt", "A")] []).dirs ∧
      (∀ p, p ≠ (⟨"d"⟩ : WorkReportGenerator).exec_dir ++ "/" ++
          ("Archive/" ++ y ++ "/" ++ m) ++ "/" ++ root →
        (FileSystem.mk [("d/Archive/2020/08/20200826.txt", "A"),
          ("d/20200826.txt", "A")] ["d/Archive/2020/08"]).read p =
          (FileSystem.mk [("d/20200826.txt", "A")] []).read p) ∧
      (FileSystem.mk [("d/Archive/2020/08/20200826.txt", "A"),
        ("d/20200826.txt", "A")] ["d/Archive/2020/08"]).read "d/20200826.txt"
        = (FileSystem.mk [("d/20200826.txt", "A")] []).read "d/20200826.txt") :=
  ⟨by rfl, C10_theorem ⟨"d"⟩ ⟨[("d/20200826.txt", "A")], []⟩
    ⟨[("d/Archive/2020/08/20200826.txt", "A"), ("d/20200826.txt", "A")],
      ["d/Archive/2020/08"]⟩ "d/20200826.txt" (by rfl)⟩

end WorkReport
